import Mathlib

/-!
Shallow embedding of `franchise_web_app.py` (Franchise Fit Finder): the
filter/score/rank pipeline run on the "Find My Matches" button, and the
`money` / `_format_single` display helpers.

Python strings are modelled as `List Char`.  `str.lower()` is modelled by
`Char.toLower` (ASCII case folding; the repository's data and every claim
use ASCII text).  pandas dataframes are modelled as lists of rows: every
pipeline stage in the source is a pandas boolean-mask filter, which keeps
row order, so each stage is a `List.filter`.  `sort_values` on two key
columns uses a lexicographic stable sort (numpy `lexsort`), modelled as
`List.insertionSort` with the corresponding total preorder.
-/

namespace FranchiseFitFinder

open List

/-- Python strings, modelled as lists of characters. -/
abbrev Str := List Char

/-- Helper turning a Lean string literal into the `Str` model. -/
def chars (s : String) : Str := s.data

/-- Python `str.lower()` (ASCII model). -/
def pyLower (s : Str) : Str := s.map Char.toLower

/-- Characters removed by Python `str.strip()` and matched by regex `\s`
(ASCII whitespace). -/
def pyIsSpace (c : Char) : Bool :=
  decide (c = ' ') || decide (c = '\t') || decide (c = '\n') ||
    decide (c = '\r') || decide (c = '\x0b') || decide (c = '\x0c')

/-- Python `str.strip()`: remove leading and trailing whitespace. -/
def pyStrip (s : Str) : Str :=
  ((s.dropWhile pyIsSpace).reverse.dropWhile pyIsSpace).reverse

/-- Trailing-whitespace trim (the `\s*` the split regex consumes before a
dash). -/
def rstripWS (s : Str) : Str := (s.reverse.dropWhile pyIsSpace).reverse

/-- Leading-whitespace trim (the `\s*` the split regex consumes after a
dash). -/
def lstripWS (s : Str) : Str := s.dropWhile pyIsSpace

/-- Python substring containment `m in s`. -/
def isSubstr (m s : Str) : Bool := s.tails.any (fun t => m.isPrefixOf t)

/-- Source `count_focus_matches` (lines 118-125): split the row's industry
cell on commas, strip and lowercase each token, and count how many of the
selected focus labels have at least one mapped industry term occurring as a
substring of at least one token. -/
def count_focus_matches (biz_focus : List Str) (biz_map : Str → List Str)
    (industry_cell : Str) : Nat :=
  let inds := (industry_cell.splitOn ',').map (fun i => pyLower (pyStrip i))
  (biz_focus.filter (fun bf =>
    let mapped := (biz_map bf).map pyLower
    mapped.any (fun m => inds.any (fun ind => isSubstr m ind)))).length

/-- One catalog row, with the columns the pipeline reads.
`industryRanking` is the numeric `industry_ranking` column. -/
structure Row where
  franchiseName : Str
  industry : Str
  cashRequired : Str
  semiAbsenteeOwnership : Str
  passiveFranchise : Str
  b2b : Str
  b2c : Str
  industryRanking : Int
deriving DecidableEq, Repr

/-- The loaded dataframe: its rows, plus whether the optional `b2b` /
`b2c` columns are present (the source checks `"b2b" in df_f.columns`). -/
structure Catalog where
  rows : List Row
  hasB2b : Bool
  hasB2c : Bool
deriving DecidableEq

/-- The four liquid-capital dropdown choices (sentinel excluded: the
pipeline only runs on validated input). -/
inductive CapBracket
  | under50k
  | from50k
  | from100k
  | plus250k
deriving DecidableEq, Repr

/-- The three hands-on-time dropdown choices. -/
inductive TimeTier
  | fullTime
  | semiAbsentee
  | passive
deriving DecidableEq, Repr

/-- The three customer-type dropdown choices. -/
inductive CustomerType
  | b2bOnly
  | b2cOnly
  | either
deriving DecidableEq, Repr

/-- One validated user submission. -/
structure Prefs where
  bizFocus : List Str
  liquidCapital : CapBracket
  finance : Bool
  handsOnTime : TimeTier
  industryInterests : List Str
  customerType : CustomerType

/-- Source `cap_map` (lines 136-137). -/
def cap_map : CapBracket → Nat
  | .under50k => 50000
  | .from50k => 99000
  | .from100k => 249000
  | .plus250k => 1000000

/-- Source `cap_limit` (line 138): the bracket ceiling, doubled when the
user is willing to finance. -/
def cap_limit (p : Prefs) : Nat :=
  cap_map p.liquidCapital * (if p.finance then 2 else 1)

/-- Regex `(\d[\d,]*)` of line 141: the first contiguous run starting at a
digit and continuing through digits and commas; `none` when the string has
no digit. -/
def extractFirstNumRun : Str → Option Str
  | [] => none
  | c :: cs =>
      if c.isDigit then some (c :: cs.takeWhile (fun d => d.isDigit || decide (d = ',')))
      else extractFirstNumRun cs

/-- Decimal digits to a natural number. -/
def digitsToNat (s : Str) : Nat := s.foldl (fun n c => n * 10 + (c.toNat - 48)) 0

/-- Source `cash required low` (lines 140-144): extract the first digit
run, delete the thousands separators, and read it as a number (`astype
(float)` on a digit string is an exact integer; rows with no digit get
`NaN`, modelled as `none`). -/
def cashRequiredLow (s : Str) : Option Nat :=
  (extractFirstNumRun s).map (fun run => digitsToNat (run.filter (fun c => decide (c ≠ ','))))

/-- One surviving row paired with its `match_score` column. -/
structure ScoredRow where
  row : Row
  matchScore : Nat
deriving DecidableEq, Repr

/-- Stage 1 (line 127): rows whose industry cell matches at least one
selected focus label. -/
def stage1Rows (cat : Catalog) (biz_map : Str → List Str) (p : Prefs) : List Row :=
  cat.rows.filter (fun r => decide (0 < count_focus_matches p.bizFocus biz_map r.industry))

/-- Line 132: attach `match_score` to every stage-1 survivor. -/
def scoredRows (cat : Catalog) (biz_map : Str → List Str) (p : Prefs) : List ScoredRow :=
  (stage1Rows cat biz_map p).map
    (fun r => ⟨r, count_focus_matches p.bizFocus biz_map r.industry⟩)

/-- Stage 2 (line 145): keep rows whose parsed low cost is at most the
ceiling; a `NaN` cost (unparseable) compares false and is dropped. -/
def capitalFilter (lim : Nat) (l : List ScoredRow) : List ScoredRow :=
  l.filter (fun s =>
    match cashRequiredLow s.row.cashRequired with
    | some v => decide (v ≤ lim)
    | none => false)

/-- Stage 3 (lines 147-150): the time-commitment flag filters. -/
def timeFilter (t : TimeTier) (l : List ScoredRow) : List ScoredRow :=
  match t with
  | .semiAbsentee => l.filter (fun s => decide (s.row.semiAbsenteeOwnership = chars "Yes"))
  | .passive => l.filter (fun s => decide (s.row.passiveFranchise = chars "Yes"))
  | .fullTime => l

/-- Stage 4 (lines 152-155): when interests were chosen, keep rows whose
raw industry string contains one of them (case-sensitive substring). -/
def interestFilter (tags : List Str) (l : List ScoredRow) : List ScoredRow :=
  if tags.isEmpty then l
  else l.filter (fun s => tags.any (fun tag => isSubstr tag s.row.industry))

/-- Stage 5 (lines 157-160): the customer-type flag filter, skipped when
the relevant column is absent from the catalog. -/
def customerFilter (cat : Catalog) (ct : CustomerType) (l : List ScoredRow) : List ScoredRow :=
  match ct with
  | .b2bOnly =>
      if cat.hasB2b then l.filter (fun s => decide (pyLower s.row.b2b = chars "yes")) else l
  | .b2cOnly =>
      if cat.hasB2c then l.filter (fun s => decide (pyLower s.row.b2c = chars "yes")) else l
  | .either => l

/-- Sort key of line 163: `match_score` descending, then
`industry_ranking` ascending. -/
def keyLE (a b : ScoredRow) : Prop :=
  b.matchScore < a.matchScore ∨
    (a.matchScore = b.matchScore ∧ a.row.industryRanking ≤ b.row.industryRanking)

instance : DecidableRel keyLE := fun a b => by
  unfold keyLE
  exact inferInstance

/-- Source lines 163-164: pandas `sort_values` on two key columns is a
stable lexicographic sort (numpy `lexsort`), modelled by the stable
`insertionSort`. -/
def rankedSort (l : List ScoredRow) : List ScoredRow := List.insertionSort keyLE l

/-- Source `RESULT_LIMIT` (line 9). -/
def RESULT_LIMIT : Nat := 10

/-- The strict pipeline survivors, stages 2-5 applied in source order to
the scored stage-1 set. -/
def strictSurvivors (cat : Catalog) (biz_map : Str → List Str) (p : Prefs) : List ScoredRow :=
  customerFilter cat p.customerType
    (interestFilter p.industryInterests
      (timeFilter p.handsOnTime
        (capitalFilter (cap_limit p) (scoredRows cat biz_map p))))

/-- The three ways a run of the button handler can end: the stage-1 error
stop of lines 128-130, the post-filter error stop of lines 166-168, and a
rendered result list. -/
inductive Outcome
  | noFocusMatch
  | empty
  | results (top : List ScoredRow)
deriving DecidableEq, Repr

/-- The whole pipeline of lines 106-170: stage-1 focus filter with its
empty check, strict filters, sort, the post-sort empty check, and the
`head(RESULT_LIMIT)` cap. -/
def matchRun (cat : Catalog) (biz_map : Str → List Str) (p : Prefs) : Outcome :=
  if (stage1Rows cat biz_map p).isEmpty then Outcome.noFocusMatch
  else if (rankedSort (strictSurvivors cat biz_map p)).isEmpty then Outcome.empty
  else Outcome.results ((rankedSort (strictSurvivors cat biz_map p)).take RESULT_LIMIT)

/-- The literal fallback text of the money helpers. -/
def fallbackText : Str := chars "contact us for details"

/-- Regex `[^\d.]` deletion of line 192: keep only digits and dots. -/
def stripNonDigitDot (s : Str) : Str := s.filter (fun c => c.isDigit || decide (c = '.'))

/-- Whether Python `float()` accepts a digits-and-dots string: at least one
digit and at most one dot (otherwise it raises `ValueError`). -/
def floatParsable (s : Str) : Bool :=
  s.any Char.isDigit && decide (s.countP (fun c => decide (c = '.')) ≤ 1)

/-- Whether the parsed value is numerically zero: every digit is `0`. -/
def isZeroVal (s : Str) : Bool := s.all (fun c => !c.isDigit || decide (c = '0'))

/-- Rounding of format spec `.0f` on the decimal value `n.frac`,
half-to-even, modelled on the exact decimal digits. -/
def roundHalfEven (n : Nat) (frac : Str) : Nat :=
  match frac with
  | [] => n
  | c :: rest =>
      if c.toNat < 53 then n
      else if 53 < c.toNat then n + 1
      else if rest.any (fun d => decide (d ≠ '0')) then n + 1
      else if n % 2 = 0 then n else n + 1

/-- The integer that format spec `,.0f` renders for a parsable
digits-and-dots string: integer part rounded by the fractional part. -/
def decimalRound (s : Str) : Nat :=
  roundHalfEven (digitsToNat (s.takeWhile (fun c => decide (c ≠ '.'))))
    ((s.dropWhile (fun c => decide (c ≠ '.'))).drop 1)

/-- Thousands separators of format spec `,.0f`: a comma every three digits
from the right. -/
def addThousands (ds : Str) : Str :=
  (List.intercalate [','] (List.toChunks 3 ds.reverse)).reverse

/-- Source `_format_single` (lines 190-198; the leading underscore is
dropped for Lean).  Strip everything but digits and dots; empty means the
fallback text; a remainder `float()` rejects (no digit, or two or more
dots) raises `ValueError`, modelled as `none`; a zero value means the
fallback text; otherwise render `$` plus the comma-grouped rounded value.
The arithmetic is modelled on exact decimals; `float` overflow to
infinity (inputs beyond about 1e308, caught by the `math.isfinite` guard)
and binary rounding error are not represented — no claim depends on
them. -/
def format_single (num_str : Str) : Option Str :=
  let n_str := stripNonDigitDot num_str
  if n_str.isEmpty then some fallbackText
  else if floatParsable n_str then
    if isZeroVal n_str then some fallbackText
    else some ('$' :: addThousands (Nat.toDigits 10 (decimalRound n_str)))
  else none

/-- The three range separators of the regex `[-–—]` on lines 206-207. -/
def dashChar (c : Char) : Bool :=
  decide (c = '-') || decide (c = '–') || decide (c = '—')

/-- Left part of `re.split(r"\s*[-–—]\s*", txt, maxsplit=1)`: everything
before the first dash, with the whitespace the separator regex consumes
trimmed. -/
def splitLeft (txt : Str) : Str := rstripWS (txt.takeWhile (fun c => !dashChar c))

/-- Right part of the same split: everything after the first dash, with
the consumed whitespace trimmed. -/
def splitRight (txt : Str) : Str :=
  lstripWS ((txt.dropWhile (fun c => !dashChar c)).drop 1)

/-- Range branch of `money` (lines 206-211): format the two sides of the
first dash independently; if either yields the fallback text (detected by
the `"contact us" in (l_fmt + r_fmt)` substring test) fall back wholly;
otherwise join with a spaced em dash.  An unhandled `ValueError` from
either side propagates (`none`). -/
def rangeBranch (txt : Str) : Option Str :=
  match format_single (splitLeft txt), format_single (splitRight txt) with
  | some lf, some rf =>
      if isSubstr (chars "contact us") (lf ++ rf) then some fallbackText
      else some (lf ++ chars " — " ++ rf)
  | _, _ => none

/-- Source `money` (lines 200-213): `None`/`NaN` yields the fallback text;
otherwise strip the text and treat it as a range when it contains any
dash, else format it as a single value. -/
def money (val : Option Str) : Option Str :=
  match val with
  | none => some fallbackText
  | some v =>
      let txt := pyStrip v
      if txt.any dashChar then rangeBranch txt else format_single txt

/-! Spec-side formulation of the stage-1 scoring rule, for the refinement
check of the focus-scoring claim. -/

/-- Spec-side tokens of a row's industry cell: split on commas, trim,
lowercase. -/
def focusTokens (industry_cell : Str) : List Str :=
  (industry_cell.splitOn ',').map (fun i => pyLower (pyStrip i))

/-- Spec-side satisfaction of one focus label: some mapped industry
substring (lowercased) occurs as a substring of some token. -/
def labelSatisfied (biz_map : Str → List Str) (industry_cell : Str) (bf : Str) : Prop :=
  ∃ m ∈ (biz_map bf).map pyLower, ∃ tok ∈ focusTokens industry_cell, isSubstr m tok = true

instance (biz_map : Str → List Str) (industry_cell : Str) (bf : Str) :
    Decidable (labelSatisfied biz_map industry_cell bf) := by
  unfold labelSatisfied
  exact inferInstance

/-! Concrete data used by counterexamples and witnesses. -/

/-- Row builder for the concrete examples: a retail row with all flag
columns present. -/
def mkRow (nm ind cash : String) (rank : Int) : Row where
  franchiseName := chars nm
  industry := chars ind
  cashRequired := chars cash
  semiAbsenteeOwnership := chars "Yes"
  passiveFranchise := chars "No"
  b2b := chars "Yes"
  b2c := chars "Yes"
  industryRanking := rank

/-- A focus index mapping every label to the single term `Retail`. -/
def exMap : Str → List Str := fun _ => [chars "Retail"]

/-- A validated preference set: one focus label, smallest bracket, no
financing, full-time, no interest tags, either customer type. -/
def basePrefs : Prefs where
  bizFocus := [chars "retail"]
  liquidCapital := .under50k
  finance := false
  handsOnTime := .fullTime
  industryInterests := []
  customerType := .either

/-- A cheap matching row. -/
def exRowA : Row := mkRow "A" "Retail, Pet Grooming" "$40,000" 3

/-- An expensive matching row. -/
def exRowExp : Row := mkRow "E" "Retail" "$60,000" 1

/-- A matching row whose cost field has no digit. -/
def exRowBad : Row := mkRow "Bad" "Retail" "N/A" 2

/-- A matching row whose parsed cost is 1,500,000. -/
def exRowHuge : Row := mkRow "H" "Retail" "$1,500,000" 4

/-- One cheap row catalog. -/
def exCat : Catalog where
  rows := [exRowA]
  hasB2b := true
  hasB2c := true

/-- One expensive row catalog: stage 1 keeps it, the capital filter under
the smallest bracket drops it. -/
def c1Cat : Catalog where
  rows := [exRowExp]
  hasB2b := true
  hasB2c := true

/-- Catalog with a digitless-cost row alongside a good one. -/
def c8Cat : Catalog where
  rows := [exRowA, exRowBad]
  hasB2b := true
  hasB2c := true

/-- A second cheap matching row, better ranked than `exRowA`. -/
def exRowB : Row := mkRow "B" "Retail" "$45,000" 1

/-- Two matching rows with equal score and distinct rankings, for the
sort-order witness. -/
def c3Cat : Catalog where
  rows := [exRowA, exRowB]
  hasB2b := true
  hasB2c := true

/-- Whether a scored row carries the same sort key (score and ranking) as
the reference row `a`; used to state sort stability. -/
def sameKey (a x : ScoredRow) : Bool :=
  decide (x.matchScore = a.matchScore) && decide (x.row.industryRanking = a.row.industryRanking)

/-- The `$250k+` bracket preference. -/
def prefs250 : Prefs := { basePrefs with liquidCapital := .plus250k }

/-- The `$50k-$99k` bracket preference. -/
def prefsWide : Prefs := { basePrefs with liquidCapital := .from50k }

/-- Expensive row number `i` of the monotonicity counterexample, ranked
`i`. -/
def monoExp (i : Nat) : Row := mkRow "E" "Retail" "$60,000" (Int.ofNat i)

/-- Cheap but badly ranked row of the monotonicity counterexample. -/
def monoCheap : Row := mkRow "C" "Retail" "$40,000" 100

/-- Eleven-row catalog: one cheap row ranked 100 and ten expensive rows
ranked 1 to 10. -/
def monoCat : Catalog where
  rows := monoCheap :: (List.range 10).map (fun i => monoExp (i + 1))
  hasB2b := true
  hasB2c := true

/-! Helper lemmas about the pipeline. -/

theorem keyLE_total : ∀ a b : ScoredRow, keyLE a b ∨ keyLE b a := by
  intro a b
  unfold keyLE
  omega

theorem keyLE_trans : ∀ a b c : ScoredRow, keyLE a b → keyLE b c → keyLE a c := by
  intro a b c h1 h2
  unfold keyLE at h1 h2 ⊢
  omega

instance : IsTotal ScoredRow keyLE := ⟨keyLE_total⟩

instance : IsTrans ScoredRow keyLE := ⟨keyLE_trans⟩

theorem capitalFilter_sublist (lim : Nat) (l : List ScoredRow) : capitalFilter lim l <+ l :=
  List.filter_sublist l

theorem timeFilter_sublist (t : TimeTier) (l : List ScoredRow) : timeFilter t l <+ l := by
  cases t
  · exact List.Sublist.refl l
  · exact List.filter_sublist l
  · exact List.filter_sublist l

theorem interestFilter_sublist (tags : List Str) (l : List ScoredRow) :
    interestFilter tags l <+ l := by
  unfold interestFilter
  split
  · exact List.Sublist.refl l
  · exact List.filter_sublist l

theorem customerFilter_sublist (cat : Catalog) (ct : CustomerType) (l : List ScoredRow) :
    customerFilter cat ct l <+ l := by
  cases ct
  · simp only [customerFilter]
    split
    · exact List.filter_sublist l
    · exact List.Sublist.refl l
  · simp only [customerFilter]
    split
    · exact List.filter_sublist l
    · exact List.Sublist.refl l
  · exact List.Sublist.refl l

theorem strictSurvivors_sublist (cat : Catalog) (m : Str → List Str) (p : Prefs) :
    strictSurvivors cat m p <+ scoredRows cat m p :=
  (((customerFilter_sublist _ _ _).trans (interestFilter_sublist _ _)).trans
    (timeFilter_sublist _ _)).trans (capitalFilter_sublist _ _)

theorem capitalFilter_mono {lim1 lim2 : Nat} (h : lim1 ≤ lim2) (l : List ScoredRow) :
    capitalFilter lim1 l <+ capitalFilter lim2 l := by
  unfold capitalFilter
  apply List.monotone_filter_right
  intro s hs
  cases hcl : cashRequiredLow s.row.cashRequired with
  | none => simp only [hcl] at hs; exact Bool.noConfusion hs
  | some v =>
      simp only [hcl, decide_eq_true_eq] at hs ⊢
      omega

theorem timeFilter_mono (t : TimeTier) {l1 l2 : List ScoredRow} (h : l1 <+ l2) :
    timeFilter t l1 <+ timeFilter t l2 := by
  cases t
  · exact h
  · exact h.filter _
  · exact h.filter _

theorem interestFilter_mono (tags : List Str) {l1 l2 : List ScoredRow} (h : l1 <+ l2) :
    interestFilter tags l1 <+ interestFilter tags l2 := by
  unfold interestFilter
  split
  · exact h
  · exact h.filter _

theorem customerFilter_mono (cat : Catalog) (ct : CustomerType) {l1 l2 : List ScoredRow}
    (h : l1 <+ l2) : customerFilter cat ct l1 <+ customerFilter cat ct l2 := by
  cases ct
  · simp only [customerFilter]
    split
    · exact h.filter _
    · exact h
  · simp only [customerFilter]
    split
    · exact h.filter _
    · exact h
  · exact h

theorem pairwise_rankedSort (l : List ScoredRow) : (rankedSort l).Pairwise keyLE :=
  List.sorted_insertionSort keyLE l

theorem filter_rankedSort (p : ScoredRow → Bool)
    (hp : ∀ a b : ScoredRow, p a = true → p b = true → keyLE a b) (l : List ScoredRow) :
    (rankedSort l).filter p = l.filter p := by
  unfold rankedSort
  have h1 : l.filter p <+ l := List.filter_sublist l
  have hpw : (l.filter p).Pairwise keyLE :=
    List.pairwise_of_forall_mem_list fun a ha b hb =>
      hp a b (List.mem_filter.mp ha).2 (List.mem_filter.mp hb).2
  have h2 : l.filter p <+ List.insertionSort keyLE l := List.sublist_insertionSort hpw h1
  have h3 : (l.filter p).filter p <+ (List.insertionSort keyLE l).filter p := h2.filter p
  have h4 : (l.filter p).filter p = l.filter p := by
    simp [List.filter_filter]
  rw [h4] at h3
  have hlen : (l.filter p).length = ((List.insertionSort keyLE l).filter p).length := by
    rw [← List.countP_eq_length_filter, ← List.countP_eq_length_filter]
    exact ((List.perm_insertionSort keyLE l).countP_eq p).symm
  exact (h3.eq_of_length hlen).symm

theorem matchRun_results (cat : Catalog) (m : Str → List Str) (p : Prefs)
    (rs : List ScoredRow) (h : matchRun cat m p = Outcome.results rs) :
    rs = (rankedSort (strictSurvivors cat m p)).take RESULT_LIMIT := by
  unfold matchRun at h
  split at h
  · exact Outcome.noConfusion h
  · split at h
    · exact Outcome.noConfusion h
    · injection h with h
      exact h.symm

theorem mem_scoredRows_score (cat : Catalog) (m : Str → List Str) (p : Prefs)
    {x : ScoredRow} (h : x ∈ scoredRows cat m p) : 0 < x.matchScore := by
  unfold scoredRows at h
  obtain ⟨r, hr, rfl⟩ := List.mem_map.mp h
  unfold stage1Rows at hr
  have h2 := (List.mem_filter.mp hr).2
  simpa using h2

theorem mem_strict_isSome (cat : Catalog) (m : Str → List Str) (p : Prefs) {x : ScoredRow}
    (h : x ∈ strictSurvivors cat m p) :
    (cashRequiredLow x.row.cashRequired).isSome = true := by
  unfold strictSurvivors at h
  have h1 : x ∈ capitalFilter (cap_limit p) (scoredRows cat m p) :=
    (((customerFilter_sublist _ _ _).trans (interestFilter_sublist _ _)).trans
      (timeFilter_sublist _ _)).subset h
  unfold capitalFilter at h1
  have h2 := (List.mem_filter.mp h1).2
  cases hcl : cashRequiredLow x.row.cashRequired with
  | none => rw [hcl] at h2; exact Bool.noConfusion h2
  | some v => rfl

theorem cashRequiredLow_none {s : Str} (h : s.all (fun c => !c.isDigit) = true) :
    cashRequiredLow s = none := by
  have hrun : extractFirstNumRun s = none := by
    induction s with
    | nil => rfl
    | cons c cs ih =>
        rw [List.all_cons, Bool.and_eq_true] at h
        unfold extractFirstNumRun
        rw [if_neg]
        · exact ih h.2
        · simpa using h.1
  unfold cashRequiredLow
  rw [hrun]
  rfl

/-! Claim theorems. -/

/-- C1 counterexample: a catalog whose single row survives stage 1 but is
dropped by the capital filter makes the pipeline halt with the terminal
empty outcome; no relaxed fallback result is produced, refuting the claim
that the stage-1 survivors are returned with a fallback status. -/
theorem C1_counterexample :
    matchRun c1Cat exMap basePrefs = Outcome.empty ∧
    (stage1Rows c1Cat exMap basePrefs).isEmpty = false := by
  constructor
  · decide
  · decide

/-- C1 amended: when stages 2 through 5 eliminate every row, the pipeline
halts with the terminal empty outcome (the error stop of lines 166-168);
the stage-1 survivors are not returned. -/
theorem C1_thm (cat : Catalog) (m : Str → List Str) (p : Prefs)
    (h1 : (stage1Rows cat m p).isEmpty = false)
    (h2 : strictSurvivors cat m p = []) :
    matchRun cat m p = Outcome.empty := by
  unfold matchRun
  rw [h2, h1]
  rfl

/-- C1 witness: the amended theorem applied to the concrete catalog. -/
theorem C1_witness : matchRun c1Cat exMap basePrefs = Outcome.empty :=
  C1_thm c1Cat exMap basePrefs (by decide) (by decide)

/-- C2 counterexample: a row whose cost parses to 1,500,000 is dropped by
the capital filter under the `$250k+` bracket, refuting the claim that
every row with a parseable cost survives that bracket. -/
theorem C2_counterexample :
    cashRequiredLow exRowHuge.cashRequired = some 1500000 ∧
    capitalFilter (cap_limit prefs250) [⟨exRowHuge, 1⟩] = [] := by
  constructor
  · decide
  · decide

/-- C2 amended: under the `$250k+` bracket the ceiling is the literal
value 1,000,000 (doubled with financing): a row stays in the capital
filter exactly when its cost parses and the parsed value is at most that
ceiling. -/
theorem C2_thm (p : Prefs) (hb : p.liquidCapital = CapBracket.plus250k)
    (l : List ScoredRow) (s : ScoredRow) :
    s ∈ capitalFilter (cap_limit p) l ↔
      s ∈ l ∧ ∃ v, cashRequiredLow s.row.cashRequired = some v ∧
        v ≤ 1000000 * (if p.finance then 2 else 1) := by
  have hcap : cap_limit p = 1000000 * (if p.finance then 2 else 1) := by
    unfold cap_limit
    rw [hb]
    rfl
  unfold capitalFilter
  rw [List.mem_filter, hcap]
  constructor
  · rintro ⟨hm, hp⟩
    refine ⟨hm, ?_⟩
    cases hcl : cashRequiredLow s.row.cashRequired with
    | none => rw [hcl] at hp; exact Bool.noConfusion hp
    | some v =>
        rw [hcl] at hp
        simp only [decide_eq_true_eq] at hp
        exact ⟨v, rfl, hp⟩
  · rintro ⟨hm, v, hv, hle⟩
    refine ⟨hm, ?_⟩
    rw [hv]
    simpa using hle

/-- C2 witness: the amended theorem applied to a concrete affordable
row. -/
theorem C2_witness : (⟨exRowA, 1⟩ : ScoredRow) ∈ capitalFilter (cap_limit prefs250) [⟨exRowA, 1⟩] :=
  (C2_thm prefs250 (by decide) [⟨exRowA, 1⟩] ⟨exRowA, 1⟩).mpr
    ⟨by decide, 40000, by decide, by decide⟩

/-- C6: every row of a returned result has a match score of at least one:
stage 1 drops zero-score rows and every later stage only removes rows. -/
theorem C6_thm (cat : Catalog) (m : Str → List Str) (p : Prefs) (rs : List ScoredRow)
    (hf : p.bizFocus ≠ []) (h : matchRun cat m p = Outcome.results rs) :
    ∀ x ∈ rs, 1 ≤ x.matchScore := by
  intro x hx
  rw [matchRun_results cat m p rs h] at hx
  have hx1 : x ∈ rankedSort (strictSurvivors cat m p) := List.take_subset _ _ hx
  have hx2 : x ∈ strictSurvivors cat m p := by
    unfold rankedSort at hx1
    exact (List.mem_insertionSort keyLE).mp hx1
  exact mem_scoredRows_score cat m p ((strictSurvivors_sublist cat m p).subset hx2)

/-- C6 witness: the theorem applied to a concrete one-row run. -/
theorem C6_witness : 1 ≤ (⟨exRowA, 1⟩ : ScoredRow).matchScore :=
  C6_thm exCat exMap basePrefs [⟨exRowA, 1⟩] (by decide) (by decide) ⟨exRowA, 1⟩ (by decide)

/-- C7: a returned result list never has more than `RESULT_LIMIT` = 10
entries, in every outcome that returns rows. -/
theorem C7_thm (cat : Catalog) (m : Str → List Str) (p : Prefs) (rs : List ScoredRow)
    (h : matchRun cat m p = Outcome.results rs) : rs.length ≤ RESULT_LIMIT := by
  rw [matchRun_results cat m p rs h]
  exact List.length_take_le _ _

/-- C7 witness: the theorem applied to a concrete one-row run. -/
theorem C7_witness : ([⟨exRowA, 1⟩] : List ScoredRow).length ≤ RESULT_LIMIT :=
  C7_thm exCat exMap basePrefs [⟨exRowA, 1⟩] (by decide)

/-- C8: a row whose cost field contains no digit cannot appear in any
returned result: its parsed cost is `NaN`, which the capital filter
silently drops. -/
theorem C8_thm (cat : Catalog) (m : Str → List Str) (p : Prefs) (r : Row)
    (hd : r.cashRequired.all (fun c => !c.isDigit) = true)
    (rs : List ScoredRow) (h : matchRun cat m p = Outcome.results rs) :
    ∀ x ∈ rs, x.row ≠ r := by
  intro x hx hxr
  rw [matchRun_results cat m p rs h] at hx
  have hx1 : x ∈ rankedSort (strictSurvivors cat m p) := List.take_subset _ _ hx
  have hx2 : x ∈ strictSurvivors cat m p := by
    unfold rankedSort at hx1
    exact (List.mem_insertionSort keyLE).mp hx1
  have hsome := mem_strict_isSome cat m p hx2
  rw [hxr, cashRequiredLow_none hd] at hsome
  exact Bool.noConfusion hsome

/-- C8 witness: the theorem applied to a run over a catalog holding a row
with cost text `N/A`; the returned row is not that row. -/
theorem C8_witness : (⟨exRowA, 1⟩ : ScoredRow).row ≠ exRowBad :=
  C8_thm c8Cat exMap basePrefs exRowBad (by decide) [⟨exRowA, 1⟩] (by decide)
    ⟨exRowA, 1⟩ (by decide)

theorem sameKey_keyLE {a x y : ScoredRow} (hx : sameKey a x = true)
    (hy : sameKey a y = true) : keyLE x y := by
  unfold sameKey at hx hy
  simp only [Bool.and_eq_true, decide_eq_true_eq] at hx hy
  unfold keyLE
  right
  constructor
  · rw [hx.1, hy.1]
  · rw [hx.2, hy.2]

/-- C3: a returned result list is ordered by match score descending with
industry ranking ascending as tie-break, and the sort is stable: two
returned rows with equal score and equal ranking occur in the same
relative order as in the pre-sort scored stage-1 list, which is in catalog
order. -/
theorem C3_thm (cat : Catalog) (m : Str → List Str) (p : Prefs) (rs : List ScoredRow)
    (h : matchRun cat m p = Outcome.results rs) :
    rs.Pairwise (fun a b => b.matchScore < a.matchScore ∨
      (a.matchScore = b.matchScore ∧ a.row.industryRanking ≤ b.row.industryRanking)) ∧
    ∀ a b : ScoredRow, a.matchScore = b.matchScore →
      a.row.industryRanking = b.row.industryRanking →
      [a, b] <+ rs → [a, b] <+ scoredRows cat m p := by
  rw [matchRun_results cat m p rs h]
  constructor
  · exact (pairwise_rankedSort (strictSurvivors cat m p)).sublist (List.take_sublist _ _)
  · intro a b hsc hrk hab
    have ha : sameKey a a = true := by
      unfold sameKey
      simp
    have hb : sameKey a b = true := by
      unfold sameKey
      simp [hsc, hrk]
    have h1 : [a, b] <+
        ((rankedSort (strictSurvivors cat m p)).take RESULT_LIMIT).filter (sameKey a) := by
      have h0 := hab.filter (sameKey a)
      have heq : [a, b].filter (sameKey a) = [a, b] := by
        simp [ha, hb]
      rwa [heq] at h0
    have h2 : ((rankedSort (strictSurvivors cat m p)).take RESULT_LIMIT).filter (sameKey a) <+
        (rankedSort (strictSurvivors cat m p)).filter (sameKey a) :=
      (List.take_sublist _ _).filter _
    rw [filter_rankedSort (sameKey a) (fun x y hx hy => sameKey_keyLE hx hy)
      (strictSurvivors cat m p)] at h2
    exact ((h1.trans h2).trans (List.filter_sublist _)).trans (strictSurvivors_sublist cat m p)

/-- C3 witness: the theorem applied to a concrete two-row run whose
result is ranked `B` before `A`. -/
theorem C3_witness :
    ([⟨exRowB, 1⟩, ⟨exRowA, 1⟩] : List ScoredRow).Pairwise
      (fun a b => b.matchScore < a.matchScore ∨
        (a.matchScore = b.matchScore ∧ a.row.industryRanking ≤ b.row.industryRanking)) ∧
    ∀ a b : ScoredRow, a.matchScore = b.matchScore →
      a.row.industryRanking = b.row.industryRanking →
      [a, b] <+ ([⟨exRowB, 1⟩, ⟨exRowA, 1⟩] : List ScoredRow) →
      [a, b] <+ scoredRows c3Cat exMap basePrefs :=
  C3_thm c3Cat exMap basePrefs [⟨exRowB, 1⟩, ⟨exRowA, 1⟩] (by decide)

/-- C4 counterexample: widening the capital bracket from `Under $50k` to
`$50k-$99k` admits ten better-ranked expensive rows, and the cap of 10
then pushes the previously returned cheap row out of the result, refuting
result-level monotonicity. -/
theorem C4_counterexample :
    matchRun monoCat exMap basePrefs = Outcome.results [⟨monoCheap, 1⟩] ∧
    matchRun monoCat exMap prefsWide =
      Outcome.results ((List.range 10).map (fun i => ⟨monoExp (i + 1), 1⟩)) ∧
    (⟨monoCheap, 1⟩ : ScoredRow) ∉
      (List.range 10).map (fun i => (⟨monoExp (i + 1), 1⟩ : ScoredRow)) := by
  refine ⟨by decide, by decide, by decide⟩

/-- C4 amended: widening the capital bracket (or enabling financing, both
captured by a larger resolved ceiling) with all other preference fields
unchanged never removes a row from the strict pre-cap survivor set; only
the final `head(10)` cap can push a previously returned row out. -/
theorem C4_thm (cat : Catalog) (m : Str → List Str) (p1 p2 : Prefs)
    (hf : p1.bizFocus = p2.bizFocus) (ht : p1.handsOnTime = p2.handsOnTime)
    (hi : p1.industryInterests = p2.industryInterests)
    (hc : p1.customerType = p2.customerType)
    (hcap : cap_limit p1 ≤ cap_limit p2) :
    strictSurvivors cat m p1 <+ strictSurvivors cat m p2 := by
  have hs : scoredRows cat m p1 = scoredRows cat m p2 := by
    unfold scoredRows stage1Rows
    rw [hf]
  unfold strictSurvivors
  rw [hs, ht, hi, hc]
  exact customerFilter_mono _ _
    (interestFilter_mono _ (timeFilter_mono _ (capitalFilter_mono hcap _)))

/-- C4 witness: the amended theorem applied to the concrete widening. -/
theorem C4_witness :
    strictSurvivors monoCat exMap basePrefs <+ strictSurvivors monoCat exMap prefsWide :=
  C4_thm monoCat exMap basePrefs prefsWide rfl rfl rfl rfl (by decide)

/-- C5: the stage-1 score counts exactly the selected labels satisfied in
the spec's sense — some lowercased mapped industry substring occurs inside
some comma-split, trimmed, lowercased token of the row's industry cell —
and satisfaction is substring containment, not equality: the mapped term
`pet` matches the token `pet grooming`. -/
theorem C5_thm :
    (∀ (focus : List Str) (m : Str → List Str) (cell : Str),
        count_focus_matches focus m cell =
          (focus.filter (fun bf => decide (labelSatisfied m cell bf))).length) ∧
    isSubstr (chars "pet") (chars "pet grooming") = true := by
  constructor
  · intro focus m cell
    simp only [count_focus_matches]
    congr 1
    apply List.filter_congr
    intro bf _
    rw [Bool.eq_iff_iff, decide_eq_true_eq]
    unfold labelSatisfied focusTokens
    simp [List.any_eq_true]
  · decide

/-- C9 counterexample: on the input `.` (non-numeric after stripping,
since it has no digit), the single-value formatter raises `ValueError` at
`float(".")` instead of returning the fallback text, refuting the claim's
general fallback clause. -/
theorem C9_counterexample :
    money (some (chars ".")) = none ∧
    money (some (chars ".")) ≠ some fallbackText := by
  refine ⟨by decide, by decide⟩

/-- C9 amended: the four concrete formatting examples hold; a value that
is absent, or empty after stripping non-digit and non-dot characters, or
numerically zero, yields the fallback text; but a non-empty stripped value
that `float` rejects (such as a lone dot) raises an error instead of
falling back. -/
theorem C9_thm :
    money (some (chars "50000")) = some (chars "$50,000") ∧
    money (some (chars "0")) = some fallbackText ∧
    money (some (chars "50000-75000")) = some (chars "$50,000 — $75,000") ∧
    money none = some fallbackText ∧
    (∀ s : Str, stripNonDigitDot s = [] → format_single s = some fallbackText) ∧
    (∀ s : Str, floatParsable (stripNonDigitDot s) = true →
        isZeroVal (stripNonDigitDot s) = true → format_single s = some fallbackText) ∧
    format_single (chars ".") = none := by
  refine ⟨by decide, by decide, by decide, by decide, ?_, ?_, by decide⟩
  · intro s hsd
    simp [format_single, hsd]
  · intro s h1 h2
    have hne : (stripNonDigitDot s).isEmpty = false := by
      cases hs : stripNonDigitDot s with
      | nil => rw [hs] at h1; exact Bool.noConfusion h1
      | cons c cs => rfl
    simp [format_single, hne, h1, h2]

/-- C9 witness: the amended theorem's general fallback clause applied to
a concrete all-letter input. -/
theorem C9_witness : format_single (chars "abc") = some fallbackText :=
  C9_thm.2.2.2.2.1 (chars "abc") (by decide)

theorem dash_not_space {c : Char} (h : dashChar c = true) : pyIsSpace c = false := by
  unfold dashChar at h
  simp only [Bool.or_eq_true, decide_eq_true_eq] at h
  rcases h with (h | h) | h <;> subst h <;> rfl

theorem mem_dropWhile_of_not {p : Char → Bool} {c : Char} {s : Str} (hc : p c = false)
    (h : c ∈ s) : c ∈ s.dropWhile p := by
  rw [← List.takeWhile_append_dropWhile p s] at h
  rcases List.mem_append.mp h with h1 | h2
  · have h3 := List.mem_takeWhile_imp h1
    rw [hc] at h3
    exact Bool.noConfusion h3
  · exact h2

theorem mem_pyStrip {c : Char} {s : Str} (hc : pyIsSpace c = false) (h : c ∈ s) :
    c ∈ pyStrip s := by
  unfold pyStrip
  rw [List.mem_reverse]
  apply mem_dropWhile_of_not hc
  rw [List.mem_reverse]
  exact mem_dropWhile_of_not hc h

/-- C10: any money input containing a dash anywhere is treated as a range
and split at the first dash; in particular `-50000` splits into an empty
left side that fails to format, so the whole value yields the fallback
text rather than a formatted negative amount. -/
theorem C10_thm :
    (∀ s : Str, s.any dashChar = true → money (some s) = rangeBranch (pyStrip s)) ∧
    splitLeft (pyStrip (chars "-50000")) = [] ∧
    money (some (chars "-50000")) = some fallbackText := by
  refine ⟨?_, by decide, by decide⟩
  intro s hs
  have hdash : (pyStrip s).any dashChar = true := by
    rw [List.any_eq_true] at hs ⊢
    obtain ⟨c, hc, hcd⟩ := hs
    exact ⟨c, mem_pyStrip (dash_not_space hcd) hc, hcd⟩
  simp [money, hdash]

/-- C10 witness: the range clause applied to a concrete dashed input. -/
theorem C10_witness : money (some (chars "5-6")) = rangeBranch (pyStrip (chars "5-6")) :=
  C10_thm.1 (chars "5-6") (by decide)

end FranchiseFitFinder
